import Mathlib

/-!
Shallow embedding of `src/kdf.rs` (libsignal HKDF engine) together with its
external keyed-hash collaborator, HMAC-SHA256 (the `hmac`/`sha2` crates used by
the source).  Bytes are `Nat` values `< 256`, byte strings are `List Nat`,
32-bit machine words are `Nat` with explicit reduction `% 2^32`.
-/

namespace LibsignalKdf

/-- Truncation of a `Nat` to an unsigned 32-bit word, the word size of SHA-256. -/
def w32 (x : Nat) : Nat := x % 4294967296

/-- 32-bit right rotation (FIPS 180-4 `ROTR`). -/
def rotr (n x : Nat) : Nat := w32 ((x >>> n) ||| (x <<< (32 - n)))

/-- FIPS 180-4 `Ch(x,y,z)`; bitwise not is xor with the all-ones 32-bit word. -/
def shaCh (x y z : Nat) : Nat := (x &&& y) ^^^ ((x ^^^ 4294967295) &&& z)

/-- FIPS 180-4 `Maj(x,y,z)`. -/
def shaMaj (x y z : Nat) : Nat := (x &&& y) ^^^ (x &&& z) ^^^ (y &&& z)

/-- FIPS 180-4 `Σ₀`. -/
def bsig0 (x : Nat) : Nat := rotr 2 x ^^^ rotr 13 x ^^^ rotr 22 x

/-- FIPS 180-4 `Σ₁`. -/
def bsig1 (x : Nat) : Nat := rotr 6 x ^^^ rotr 11 x ^^^ rotr 25 x

/-- FIPS 180-4 `σ₀`. -/
def ssig0 (x : Nat) : Nat := rotr 7 x ^^^ rotr 18 x ^^^ (x >>> 3)

/-- FIPS 180-4 `σ₁`. -/
def ssig1 (x : Nat) : Nat := rotr 17 x ^^^ rotr 19 x ^^^ (x >>> 10)

/-- The 64 SHA-256 round constants of FIPS 180-4 §4.2.2 (the fractional parts
of the cube roots of the first 64 primes), written in decimal. -/
def shaK : List Nat :=
  [1116352408, 1899447441, 3049323471, 3921009573,
   961987163, 1508970993, 2453635748, 2870763221,
   3624381080, 310598401, 607225278, 1426881987,
   1925078388, 2162078206, 2614888103, 3248222580,
   3835390401, 4022224774, 264347078, 604807628,
   770255983, 1249150122, 1555081692, 1996064986,
   2554220882, 2821834349, 2952996808, 3210313671,
   3336571891, 3584528711, 113926993, 338241895,
   666307205, 773529912, 1294757372, 1396182291,
   1695183700, 1986661051, 2177026350, 2456956037,
   2730485921, 2820302411, 3259730800, 3345764771,
   3516065817, 3600352804, 4094571909, 275423344,
   430227734, 506948616, 659060556, 883997877,
   958139571, 1322822218, 1537002063, 1747873779,
   1955562222, 2024104815, 2227730452, 2361852424,
   2428436474, 2756734187, 3204031479, 3329325298]

/-- The eight-word SHA-256 working state. -/
structure Sha256State where
  a : Nat
  b : Nat
  c : Nat
  d : Nat
  e : Nat
  f : Nat
  g : Nat
  h : Nat
  deriving DecidableEq

/-- The SHA-256 initial hash value. -/
def initState : Sha256State :=
  ⟨0x6a09e667, 0xbb67ae85, 0x3c6ef372, 0xa54ff53a, 0x510e527f, 0x9b05688c, 0x1f83d9ab, 0x5be0cd19⟩

/-- One SHA-256 round; `kw` is the round constant already added to the schedule word. -/
def shaStep (st : Sha256State) (kw : Nat) : Sha256State :=
  let t1 := w32 (st.h + bsig1 st.e + shaCh st.e st.f st.g + kw)
  let t2 := w32 (bsig0 st.a + shaMaj st.a st.b st.c)
  ⟨w32 (t1 + t2), st.a, st.b, st.c, w32 (st.d + t1), st.e, st.f, st.g⟩

/-- Componentwise 32-bit addition of two states (the final feed-forward). -/
def addState (s t : Sha256State) : Sha256State :=
  ⟨w32 (s.a + t.a), w32 (s.b + t.b), w32 (s.c + t.c), w32 (s.d + t.d),
   w32 (s.e + t.e), w32 (s.f + t.f), w32 (s.g + t.g), w32 (s.h + t.h)⟩

/-- The message schedule as a stream over a sliding 16-word window
(FIPS 180-4 §6.2.2 step 1: word *t* is `σ₁(w[t−2]) + w[t−7] + σ₀(w[t−15]) + w[t−16]`
for `t ≥ 16`); the first argument is how many schedule words remain to emit. -/
def scheduleWords :
    Nat → Nat → Nat → Nat → Nat → Nat → Nat → Nat → Nat → Nat → Nat → Nat → Nat → Nat → Nat →
      Nat → Nat → List Nat
  | 0, _, _, _, _, _, _, _, _, _, _, _, _, _, _, _, _ => []
  | n + 1, w0, w1, w2, w3, w4, w5, w6, w7, w8, w9, w10, w11, w12, w13, w14, w15 =>
    w0 :: scheduleWords n w1 w2 w3 w4 w5 w6 w7 w8 w9 w10 w11 w12 w13 w14 w15
      (w32 (ssig1 w14 + w9 + ssig0 w1 + w0))
  termination_by structural n => n

/-- SHA-256 compression of a single 16-word block into the state (blocks always
have exactly 16 words; other shapes leave the state unchanged). -/
def compress (st : Sha256State) (block : List Nat) : Sha256State :=
  match block with
  | [b0, b1, b2, b3, b4, b5, b6, b7, b8, b9, b10, b11, b12, b13, b14, b15] =>
    addState st
      (List.foldl shaStep st
        (List.zipWith (fun k x => w32 (k + x)) shaK
          (scheduleWords 64 b0 b1 b2 b3 b4 b5 b6 b7 b8 b9 b10 b11 b12 b13 b14 b15)))
  | _ => st

/-- Fold the compression function over `n` consecutive 16-word blocks. -/
def processBlocks : Nat → Sha256State → List Nat → Sha256State
  | 0, st, _ => st
  | n + 1, st, ws => processBlocks n (compress st (ws.take 16)) (ws.drop 16)

/-- Big-endian serialization of `x` into exactly `n` bytes. -/
def toBytesBE : Nat → Nat → List Nat
  | 0, _ => []
  | n + 1, x => toBytesBE n (x >>> 8) ++ [x &&& 255]

/-- Group a byte string into big-endian 32-bit words (four bytes each). -/
def toWords : List Nat → List Nat
  | b0 :: b1 :: b2 :: b3 :: rest =>
    ((b0 <<< 24) ||| (b1 <<< 16) ||| (b2 <<< 8) ||| b3) :: toWords rest
  | _ => []

/-- FIPS 180-4 §5.1.1 padding: append `0x80`, zeros, and the 64-bit big-endian
bit length, reaching a multiple of 64 bytes. -/
def padMessage (m : List Nat) : List Nat :=
  m ++ 128 :: (List.replicate ((119 - m.length % 64) % 64) 0 ++ toBytesBE 8 (m.length * 8))

/-- Serialize the eight-word state to its 32-byte digest. -/
def stateBytes (st : Sha256State) : List Nat :=
  toBytesBE 4 st.a ++ toBytesBE 4 st.b ++ toBytesBE 4 st.c ++ toBytesBE 4 st.d ++
  toBytesBE 4 st.e ++ toBytesBE 4 st.f ++ toBytesBE 4 st.g ++ toBytesBE 4 st.h

/-- SHA-256 of a byte string. -/
def sha256 (m : List Nat) : List Nat :=
  let p := padMessage m
  stateBytes (processBlocks (p.length / 64) initState (toWords p))

/-- HMAC key processing (RFC 2104, as implemented by the `hmac` crate's
`new_varkey`): a key longer than the 64-byte block size is hashed first, then
the key is zero-padded on the right to exactly 64 bytes. -/
def hmacKeyBlock (key : List Nat) : List Nat :=
  let k0 := if 64 < key.length then sha256 key else key
  k0 ++ List.replicate (64 - k0.length) 0

/-- HMAC-SHA256 of `msg` under `key` (the keyed-hash primitive used by the
engine; `mac.input` calls concatenate, `mac.result` finalizes). -/
def hmacSha256 (key msg : List Nat) : List Nat :=
  let kb := hmacKeyBlock key
  sha256 ((kb.map fun b => b ^^^ 92) ++ sha256 ((kb.map fun b => b ^^^ 54) ++ msg))

/-- The error type of `kdf.rs`: `HKDFError::UnrecognizedMessageVersion(u32)`. -/
inductive HKDFError where
  | UnrecognizedMessageVersion (message_version : Nat)
  deriving DecidableEq

/-- The engine struct of `kdf.rs`: only the resolved iteration-start offset
(a `u8` in the source). -/
structure HKDF where
  iteration_start_offset : Nat
  deriving DecidableEq

namespace HKDF

/-- `HKDF::HASH_OUTPUT_SIZE`. -/
def HASH_OUTPUT_SIZE : Nat := 32

/-- `HKDF::new`: version 2 yields offset 0, version 3 yields offset 1, anything
else is `UnrecognizedMessageVersion`. -/
def new (message_version : Nat) : Except HKDFError HKDF :=
  match message_version with
  | 2 => Except.ok { iteration_start_offset := 0 }
  | 3 => Except.ok { iteration_start_offset := 1 }
  | _ => Except.error (HKDFError.UnrecognizedMessageVersion message_version)

/-- The number of expand iterations: `(output_length + 32 - 1) / 32`. -/
def iterations (output_length : Nat) : Nat := (output_length + HASH_OUTPUT_SIZE - 1) / HASH_OUTPUT_SIZE

/-- The per-block counter byte `(i as u8) + self.iteration_start_offset` of
line 92 of `kdf.rs`: the `as u8` cast truncates `i` modulo 256, and the `u8`
addition wraps modulo 256 (release-profile semantics; in a debug profile the
addition would panic exactly when `i % 256 + offset > 255`, while the cast
truncates silently in both profiles). -/
def counterByte (offset i : Nat) : Nat := (i % 256 + offset) % 256

/-- The body of the `for i in 0..iterations` loop of `HKDF::expand`: `fuel`
iterations remain, `i` is the loop counter, `result` the accumulator.  Each
pass feeds the last 32 bytes of `result` (once it holds at least 32), then
`info`, then the counter byte, and appends the resulting 32-byte mac output. -/
def expandLoop (prk info : List Nat) (offset : Nat) : Nat → Nat → List Nat → List Nat
  | 0, _, result => result
  | fuel + 1, i, result =>
    let input :=
      (if HASH_OUTPUT_SIZE ≤ result.length
       then result.drop (result.length - HASH_OUTPUT_SIZE) else []) ++
      info ++ [counterByte offset i]
    expandLoop prk info offset fuel (i + 1) (result ++ hmacSha256 prk input)

/-- `HKDF::expand`: run the loop for `iterations` passes starting from an empty
accumulator, then truncate to `output_length`. -/
def expand (self : HKDF) (prk info : List Nat) (output_length : Nat) : List Nat :=
  (expandLoop prk info self.iteration_start_offset (iterations output_length) 0 []).take
    output_length

/-- `HKDF::extract`: HMAC-SHA256 over the input key material, keyed by the salt. -/
def extract (_self : HKDF) (salt input_key_material : List Nat) : List Nat :=
  hmacSha256 salt input_key_material

/-- `HKDF::derive_salted_secrets`: extract then expand. -/
def derive_salted_secrets (self : HKDF) (input_key_material salt info : List Nat)
    (output_length : Nat) : List Nat :=
  self.expand (self.extract salt input_key_material) info output_length

/-- `HKDF::derive_secrets`: `derive_salted_secrets` with a salt of
`HASH_OUTPUT_SIZE` zero bytes. -/
def derive_secrets (self : HKDF) (input_key_material info : List Nat)
    (output_length : Nat) : List Nat :=
  self.derive_salted_secrets input_key_material (List.replicate HASH_OUTPUT_SIZE 0) info
    output_length

end HKDF

example : sha256 [] =
    [0xe3, 0xb0, 0xc4, 0x42, 0x98, 0xfc, 0x1c, 0x14, 0x9a, 0xfb, 0xf4, 0xc8, 0x99, 0x6f, 0xb9,
     0x24, 0x27, 0xae, 0x41, 0xe4, 0x64, 0x9b, 0x93, 0x4c, 0xa4, 0x95, 0x99, 0x1b, 0x78, 0x52,
     0xb8, 0x55] := by decide

example : sha256 [0x61, 0x62, 0x63] =
    [0xba, 0x78, 0x16, 0xbf, 0x8f, 0x01, 0xcf, 0xea, 0x41, 0x41, 0x40, 0xde, 0x5d, 0xae, 0x22,
     0x23, 0xb0, 0x03, 0x61, 0xa3, 0x96, 0x17, 0x7a, 0x9c, 0xb4, 0x10, 0xff, 0x61, 0xf2, 0x00,
     0x15, 0xad] := by decide

/-- The `ikm` of the first two known-answer vectors: 22 bytes of `0x0b`. -/
def kat_ikm : List Nat := List.replicate 22 0x0b

/-- The `salt` of the first two known-answer vectors: the 13 bytes `00..0c`. -/
def kat_salt : List Nat := List.range 13

/-- The `info` of the first two known-answer vectors: the 10 bytes `f0..f9`. -/
def kat_info : List Nat := (List.range 10).map (· + 0xf0)

/-- The `ikm` of the long known-answer vector: the 80-byte ramp `00..4f`. -/
def katLong_ikm : List Nat := List.range 80

/-- The `salt` of the long known-answer vector: the 80-byte ramp `60..af`. -/
def katLong_salt : List Nat := (List.range 80).map (· + 0x60)

/-- The `info` of the long known-answer vector: the 80-byte ramp `b0..ff`. -/
def katLong_info : List Nat := (List.range 80).map (· + 0xb0)

/-- Block *i* (0-indexed) of the specification's reference expand phase: the
keyed hash, keyed by the PRK, over the concatenation of the previous block's
full output (omitted for block 0), `info`, and the single byte
`i + iteration_start_offset`. -/
def specBlock (prk info : List Nat) (offset : Nat) : Nat → List Nat
  | 0 => hmacSha256 prk (info ++ [offset])
  | i + 1 => hmacSha256 prk (specBlock prk info offset i ++ info ++ [i + 1 + offset])

/-- The concatenation, in order, of the first `i` reference blocks. -/
def joinBlocks (prk info : List Nat) (offset i : Nat) : List Nat :=
  ((List.range i).map (specBlock prk info offset)).flatten

/-- The specification's reference expand phase: `ceil(output_length / 32)`
blocks, concatenated in order and truncated to exactly `output_length` bytes. -/
def specOkm (prk info : List Nat) (offset n : Nat) : List Nat :=
  (joinBlocks prk info offset ((n + 32 - 1) / 32)).take n

/-- The specification's reference two-phase algorithm: the PRK is the keyed
hash over `input_key_material` using `salt` as the key, then the expand phase
is run on it. -/
def specDeriveSalted (offset : Nat) (input_key_material salt info : List Nat) (n : Nat) :
    List Nat :=
  specOkm (hmacSha256 salt input_key_material) info offset n

set_option maxRecDepth 40000
set_option maxHeartbeats 2000000

theorem toBytesBE_length (n x : Nat) : (toBytesBE n x).length = n := by
  induction n generalizing x with
  | zero => rfl
  | succ n ih => simp [toBytesBE, ih]

theorem stateBytes_length (st : Sha256State) : (stateBytes st).length = 32 := by
  simp [stateBytes, toBytesBE_length]

theorem sha256_length (m : List Nat) : (sha256 m).length = 32 := by
  simp [sha256, stateBytes_length]

theorem hmacSha256_length (key msg : List Nat) : (hmacSha256 key msg).length = 32 := by
  simp [hmacSha256, sha256_length]

theorem specBlock_length (prk info : List Nat) (offset i : Nat) :
    (specBlock prk info offset i).length = 32 := by
  cases i <;> simp [specBlock, hmacSha256_length]

theorem joinBlocks_succ (prk info : List Nat) (offset i : Nat) :
    joinBlocks prk info offset (i + 1) =
      joinBlocks prk info offset i ++ specBlock prk info offset i := by
  unfold joinBlocks
  rw [List.range_succ]
  simp

theorem joinBlocks_length (prk info : List Nat) (offset i : Nat) :
    (joinBlocks prk info offset i).length = 32 * i := by
  induction i with
  | zero => rfl
  | succ i ih =>
    rw [joinBlocks_succ, List.length_append, ih, specBlock_length]
    omega

theorem expandLoop_length (prk info : List Nat) (offset : Nat) :
    ∀ (fuel i : Nat) (acc : List Nat),
      (HKDF.expandLoop prk info offset fuel i acc).length = acc.length + 32 * fuel := by
  intro fuel
  induction fuel with
  | zero => intro i acc; rfl
  | succ f ih =>
    intro i acc
    simp only [HKDF.expandLoop]
    rw [ih, List.length_append, hmacSha256_length]
    omega

theorem expandLoop_prefix_acc (prk info : List Nat) (offset : Nat) :
    ∀ (fuel i : Nat) (acc : List Nat), acc <+: HKDF.expandLoop prk info offset fuel i acc := by
  intro fuel
  induction fuel with
  | zero => intro i acc; exact ⟨[], by simp [HKDF.expandLoop]⟩
  | succ f ih =>
    intro i acc
    simp only [HKDF.expandLoop]
    exact (List.prefix_append acc _).trans (ih _ _)

theorem expandLoop_mono (prk info : List Nat) (offset : Nat) :
    ∀ (f1 f2 i : Nat) (acc : List Nat), f1 ≤ f2 →
      HKDF.expandLoop prk info offset f1 i acc <+: HKDF.expandLoop prk info offset f2 i acc := by
  intro f1
  induction f1 with
  | zero => intro f2 i acc _; exact expandLoop_prefix_acc prk info offset f2 i acc
  | succ f ih =>
    intro f2 i acc h
    cases f2 with
    | zero => omega
    | succ f2 =>
      simp only [HKDF.expandLoop]
      exact ih f2 (i + 1) _ (Nat.le_of_succ_le_succ h)

theorem expandLoop_spec_step (prk info : List Nat) (offset i : Nat) (h : i + offset < 256) :
    joinBlocks prk info offset i ++
        hmacSha256 prk
          ((if 32 ≤ (joinBlocks prk info offset i).length
            then (joinBlocks prk info offset i).drop ((joinBlocks prk info offset i).length - 32)
            else []) ++ info ++ [HKDF.counterByte offset i]) =
      joinBlocks prk info offset (i + 1) := by
  have hcnt : HKDF.counterByte offset i = i + offset := by
    unfold HKDF.counterByte
    omega
  rw [joinBlocks_succ, hcnt]
  congr 1
  cases i with
  | zero =>
    have h0 : joinBlocks prk info offset 0 = [] := rfl
    rw [h0]
    simp [specBlock]
  | succ j =>
    rw [joinBlocks_succ]
    have hlen : (joinBlocks prk info offset j ++ specBlock prk info offset j).length =
        32 * j + 32 := by
      rw [List.length_append, joinBlocks_length, specBlock_length]
    rw [if_pos (by rw [hlen]; omega)]
    have hdrop : (joinBlocks prk info offset j ++ specBlock prk info offset j).drop
        ((joinBlocks prk info offset j ++ specBlock prk info offset j).length - 32) =
        specBlock prk info offset j := by
      rw [hlen]
      have h32 : 32 * j + 32 - 32 = (joinBlocks prk info offset j).length := by
        rw [joinBlocks_length]
        omega
      rw [h32, List.drop_left]
    rw [hdrop]
    rfl

theorem expandLoop_spec (prk info : List Nat) (offset : Nat) :
    ∀ (fuel i : Nat), (∀ j, j < i + fuel → j + offset < 256) →
      HKDF.expandLoop prk info offset fuel i (joinBlocks prk info offset i) =
        joinBlocks prk info offset (i + fuel) := by
  intro fuel
  induction fuel with
  | zero => intro i h; rfl
  | succ f ih =>
    intro i h
    simp only [HKDF.expandLoop, HKDF.HASH_OUTPUT_SIZE]
    rw [expandLoop_spec_step prk info offset i (h i (by omega))]
    have hrec := ih (i + 1) (fun j hj => h j (by omega))
    rw [show i + 1 + f = i + (f + 1) from by omega] at hrec
    exact hrec

/-- C1: the known-answer test vectors hold bit-exactly.  Version 2 maps to
offset 0 and, on ikm = 22 bytes of `0x0b`, salt = `00..0c`, info = `f0..f9`,
64 bytes of output begin `6e c2 55 6d 5d 7b 1d 81` and end `99 da eb ec`;
version 3 maps to offset 1 and on the same inputs 42 bytes of output begin
`3c b2 5f 25 fa ac d5 7a` and end `18 58 65`; with the three 80-byte ramps and
version 3, 82 bytes of output begin `b1 1e 39 8d c8 03 27 a1` and end
`43 4f 1d 87`. -/
theorem claim1_known_answers :
    (HKDF.new 2 = Except.ok { iteration_start_offset := 0 } ∧
      (HKDF.derive_salted_secrets { iteration_start_offset := 0 } kat_ikm kat_salt kat_info
          64).take 8 =
        [0x6e, 0xc2, 0x55, 0x6d, 0x5d, 0x7b, 0x1d, 0x81] ∧
      (HKDF.derive_salted_secrets { iteration_start_offset := 0 } kat_ikm kat_salt kat_info
          64).drop 60 =
        [0x99, 0xda, 0xeb, 0xec]) ∧
    (HKDF.new 3 = Except.ok { iteration_start_offset := 1 } ∧
      (HKDF.derive_salted_secrets { iteration_start_offset := 1 } kat_ikm kat_salt kat_info
          42).take 8 =
        [0x3c, 0xb2, 0x5f, 0x25, 0xfa, 0xac, 0xd5, 0x7a] ∧
      (HKDF.derive_salted_secrets { iteration_start_offset := 1 } kat_ikm kat_salt kat_info
          42).drop 39 =
        [0x18, 0x58, 0x65]) ∧
    ((HKDF.derive_salted_secrets { iteration_start_offset := 1 } katLong_ikm katLong_salt
          katLong_info 82).take 8 =
        [0xb1, 0x1e, 0x39, 0x8d, 0xc8, 0x03, 0x27, 0xa1] ∧
      (HKDF.derive_salted_secrets { iteration_start_offset := 1 } katLong_ikm katLong_salt
          katLong_info 82).drop 78 =
        [0x43, 0x4f, 0x1d, 0x87]) := by
  have h1 : HKDF.derive_salted_secrets { iteration_start_offset := 0 } kat_ikm kat_salt kat_info
      64 =
      [0x6e, 0xc2, 0x55, 0x6d, 0x5d, 0x7b, 0x1d, 0x81, 0xde, 0xe4, 0x22, 0x2a, 0xd7, 0x48,
       0x36, 0x95, 0xdd, 0xc9, 0x8f, 0x4f, 0x5f, 0xab, 0xc0, 0xe0, 0x20, 0x5d, 0xc2, 0xef,
       0x87, 0x52, 0xd4, 0x1e, 0x04, 0xe2, 0xe2, 0x11, 0x01, 0xc6, 0x8f, 0xf0, 0x93, 0x94,
       0xb8, 0xad, 0x0b, 0xdc, 0xb9, 0x60, 0x9c, 0xd4, 0xee, 0x82, 0xac, 0x13, 0x19, 0x9b,
       0x4a, 0xa9, 0xfd, 0xa8, 0x99, 0xda, 0xeb, 0xec] := by decide
  have h2 : HKDF.derive_salted_secrets { iteration_start_offset := 1 } kat_ikm kat_salt kat_info
      42 =
      [0x3c, 0xb2, 0x5f, 0x25, 0xfa, 0xac, 0xd5, 0x7a, 0x90, 0x43, 0x4f, 0x64, 0xd0, 0x36,
       0x2f, 0x2a, 0x2d, 0x2d, 0x0a, 0x90, 0xcf, 0x1a, 0x5a, 0x4c, 0x5d, 0xb0, 0x2d, 0x56,
       0xec, 0xc4, 0xc5, 0xbf, 0x34, 0x00, 0x72, 0x08, 0xd5, 0xb8, 0x87, 0x18, 0x58,
       0x65] := by decide
  have h3 : HKDF.derive_salted_secrets { iteration_start_offset := 1 } katLong_ikm katLong_salt
      katLong_info 82 =
      [0xb1, 0x1e, 0x39, 0x8d, 0xc8, 0x03, 0x27, 0xa1, 0xc8, 0xe7, 0xf7, 0x8c, 0x59, 0x6a,
       0x49, 0x34, 0x4f, 0x01, 0x2e, 0xda, 0x2d, 0x4e, 0xfa, 0xd8, 0xa0, 0x50, 0xcc, 0x4c,
       0x19, 0xaf, 0xa9, 0x7c, 0x59, 0x04, 0x5a, 0x99, 0xca, 0xc7, 0x82, 0x72, 0x71, 0xcb,
       0x41, 0xc6, 0x5e, 0x59, 0x0e, 0x09, 0xda, 0x32, 0x75, 0x60, 0x0c, 0x2f, 0x09, 0xb8,
       0x36, 0x77, 0x93, 0xa9, 0xac, 0xa3, 0xdb, 0x71, 0xcc, 0x30, 0xc5, 0x81, 0x79, 0xec,
       0x3e, 0x87, 0xc1, 0x4c, 0x01, 0xd5, 0xc1, 0xf3, 0x43, 0x4f, 0x1d, 0x87] := by decide
  exact ⟨⟨rfl, by rw [h1]; decide, by rw [h1]; decide⟩,
    ⟨rfl, by rw [h2]; decide, by rw [h2]; decide⟩,
    by rw [h3]; decide, by rw [h3]; decide⟩

/-- C2: wherever the specification's reference two-phase algorithm is defined
(every produced counter `i + iteration_start_offset` fits in one byte, which
the reference text demands on pain of a programming error), `derive_salted_secrets`
computes exactly that algorithm: PRK by keyed hash of the material under the
salt, then `ceil(n/32)` chained counter blocks, concatenated and truncated. -/
theorem claim2_two_phase (offset : Nat) (input_key_material salt info : List Nat) (n : Nat)
    (h : HKDF.iterations n + offset ≤ 256) :
    HKDF.derive_salted_secrets { iteration_start_offset := offset } input_key_material salt info
        n =
      specDeriveSalted offset input_key_material salt info n := by
  unfold HKDF.derive_salted_secrets HKDF.expand HKDF.extract specDeriveSalted specOkm
  rw [show (n + 32 - 1) / 32 = HKDF.iterations n from rfl]
  congr 1
  have h0 : ∀ j, j < 0 + HKDF.iterations n → j + offset < 256 := by
    intro j hj
    omega
  have hrec := expandLoop_spec (hmacSha256 salt input_key_material) info offset
    (HKDF.iterations n) 0 h0
  rw [Nat.zero_add] at hrec
  exact hrec

/-- Witness for C2 at offset 1 (version 3), 42 requested bytes. -/
theorem claim2_witness :
    HKDF.iterations 42 + 1 ≤ 256 ∧
      HKDF.derive_salted_secrets { iteration_start_offset := 1 } [11] [1, 2] [3] 42 =
        specDeriveSalted 1 [11] [1, 2] [3] 42 :=
  ⟨by decide, claim2_two_phase 1 [11] [1, 2] [3] 42 (by decide)⟩

/-- C3: `new v` succeeds exactly on the closed set {2, 3}: version 2 yields the
engine with iteration-start offset 0, version 3 the engine with offset 1, and
every other value yields `UnrecognizedMessageVersion v` carrying the offending
value (so no engine is returned on error). -/
theorem claim3_version_dispatch (v : Nat) :
    HKDF.new v =
      if v = 2 then Except.ok { iteration_start_offset := 0 }
      else if v = 3 then Except.ok { iteration_start_offset := 1 }
      else Except.error (HKDFError.UnrecognizedMessageVersion v) :=
  match v with
  | 0 => rfl
  | 1 => rfl
  | 2 => rfl
  | 3 => rfl
  | _ + 4 => rfl

/-- C4 counterexample: the claim that every produced block index keeps
`i + iteration_start_offset` within one byte, guarded by an explicit range
check, is false: requesting 8224 bytes produces block index 256 (since
`iterations 8224 = 257`), the sum `256 + 0` does not fit in one byte, and the
code's counter byte silently wraps to the value used by block 0 instead of
being rejected. -/
theorem claim4_counterexample :
    256 < HKDF.iterations 8224 ∧ ¬(256 + 0 < 256) ∧
      HKDF.counterByte 0 256 = HKDF.counterByte 0 0 := by
  decide

/-- C4 amended: the code performs no range check; the counter byte is
`((i % 256) + offset) % 256`, which agrees with `i + iteration_start_offset`
exactly while that sum fits in one byte, and for indices 256 further on it
silently wraps back onto the same byte value. -/
theorem claim4_counter_wraps (offset i : Nat) (h : i + offset < 256) :
    HKDF.counterByte offset i = i + offset ∧
      HKDF.counterByte offset (i + 256) = HKDF.counterByte offset i := by
  unfold HKDF.counterByte
  constructor <;> omega

/-- Witness for the amended C4 at offset 1, block index 5. -/
theorem claim4_counter_wraps_witness :
    5 + 1 < 256 ∧
      (HKDF.counterByte 1 5 = 5 + 1 ∧ HKDF.counterByte 1 (5 + 256) = HKDF.counterByte 1 5) :=
  ⟨by decide, claim4_counter_wraps 1 5 (by decide)⟩

/-- C5: `derive_secrets` is exactly `derive_salted_secrets` with a salt of 32
zero bytes (the hash output length). -/
theorem claim5_default_salt (e : HKDF) (input_key_material info : List Nat) (n : Nat) :
    e.derive_secrets input_key_material info n =
      e.derive_salted_secrets input_key_material (List.replicate 32 0) info n := rfl

/-- C6: for every engine and all inputs, including `output_length = 0`, the
output of `derive_salted_secrets` has length exactly `output_length`. -/
theorem claim6_output_length (e : HKDF) (input_key_material salt info : List Nat) (n : Nat) :
    (e.derive_salted_secrets input_key_material salt info n).length = n := by
  unfold HKDF.derive_salted_secrets HKDF.expand
  rw [List.length_take, expandLoop_length]
  have hn : n ≤ 32 * HKDF.iterations n := by
    unfold HKDF.iterations HKDF.HASH_OUTPUT_SIZE
    omega
  omega

/-- C7: for a fixed engine and fixed material, salt and info, the output for
`output_length = L` is a byte-for-byte prefix of the output for
`output_length = L + k`. -/
theorem claim7_prefix_monotone (e : HKDF) (input_key_material salt info : List Nat)
    (L k : Nat) :
    e.derive_salted_secrets input_key_material salt info L <+:
      e.derive_salted_secrets input_key_material salt info (L + k) := by
  unfold HKDF.derive_salted_secrets HKDF.expand
  have hit : HKDF.iterations L ≤ HKDF.iterations (L + k) := by
    unfold HKDF.iterations HKDF.HASH_OUTPUT_SIZE
    omega
  obtain ⟨t, ht⟩ := expandLoop_mono (e.extract salt input_key_material) info
    e.iteration_start_offset (HKDF.iterations L) (HKDF.iterations (L + k)) 0 [] hit
  have hlen : L ≤ (HKDF.expandLoop (e.extract salt input_key_material) info
      e.iteration_start_offset (HKDF.iterations L) 0 []).length := by
    rw [expandLoop_length]
    have : L ≤ 32 * HKDF.iterations L := by
      unfold HKDF.iterations HKDF.HASH_OUTPUT_SIZE
      omega
    omega
  rw [← ht]
  have h1 : List.take L (HKDF.expandLoop (e.extract salt input_key_material) info
        e.iteration_start_offset (HKDF.iterations L) 0 []) =
      List.take L (HKDF.expandLoop (e.extract salt input_key_material) info
        e.iteration_start_offset (HKDF.iterations L) 0 [] ++ t) :=
    (List.take_append_of_le_length hlen).symm
  rw [h1, List.take_add]
  exact ⟨_, rfl⟩

/-- C8: derivation is deterministic: two calls whose engine, material, salt,
info and requested length are identical produce identical output (the
embedding is a pure function of exactly these five inputs, so there is no
hidden state or randomness to diverge on). -/
theorem claim8_determinism (e e' : HKDF) (ikm ikm' salt salt' info info' : List Nat)
    (n n' : Nat) (he : e = e') (hikm : ikm = ikm') (hsalt : salt = salt')
    (hinfo : info = info') (hn : n = n') :
    e.derive_salted_secrets ikm salt info n = e'.derive_salted_secrets ikm' salt' info' n' := by
  subst he hikm hsalt hinfo hn
  rfl

/-- Witness for C8 at a concrete repeated call. -/
theorem claim8_witness :
    HKDF.derive_salted_secrets { iteration_start_offset := 1 } [1] [2] [3] 4 =
      HKDF.derive_salted_secrets { iteration_start_offset := 1 } [1] [2] [3] 4 :=
  claim8_determinism _ _ _ _ _ _ _ _ 4 4 rfl rfl rfl rfl rfl

/-- C9 counterexample: version isolation fails for truncated outputs.  Versions
2 and 3 are distinct supported versions, the requested length 1 is positive,
yet on ikm = `[0x00, 0x34]` with empty salt and info the two engines produce
the same single output byte. -/
theorem claim9_counterexample :
    HKDF.new 2 = Except.ok { iteration_start_offset := 0 } ∧
      HKDF.new 3 = Except.ok { iteration_start_offset := 1 } ∧ 0 < 1 ∧
      HKDF.derive_salted_secrets { iteration_start_offset := 0 } [0x00, 0x34] [] [] 1 =
        HKDF.derive_salted_secrets { iteration_start_offset := 1 } [0x00, 0x34] [] [] 1 :=
  ⟨rfl, rfl, by decide, by decide⟩

/-- C9 amended: the per-block counter byte of the two supported versions
differs at every block index, so the inputs fed to the keyed hash differ and
untruncated outputs differ in general — e.g. the two engines disagree on the
full first block for the input exhibiting the one-byte collision — but
truncation can erase the difference, so outputs of positive length are not
guaranteed distinct. -/
theorem claim9_counter_distinct :
    (∀ i : Nat, HKDF.counterByte 0 i ≠ HKDF.counterByte 1 i) ∧
      HKDF.derive_salted_secrets { iteration_start_offset := 0 } [0x00, 0x34] [] [] 32 ≠
        HKDF.derive_salted_secrets { iteration_start_offset := 1 } [0x00, 0x34] [] [] 32 := by
  constructor
  · intro i
    unfold HKDF.counterByte
    omega
  · decide

/-- C10: an empty salt and the default 32-zero-byte salt derive identical
output: HMAC-SHA256 zero-pads both keys to the same 64-zero-byte block, so the
PRKs and hence the whole output streams coincide. -/
theorem claim10_empty_salt (e : HKDF) (input_key_material info : List Nat) (n : Nat) :
    e.derive_salted_secrets input_key_material [] info n =
      e.derive_secrets input_key_material info n := by
  show e.expand (hmacSha256 [] input_key_material) info n =
    e.expand (hmacSha256 (List.replicate 32 0) input_key_material) info n
  have hkb : hmacKeyBlock [] = hmacKeyBlock (List.replicate 32 0) := by decide
  have hk : hmacSha256 [] input_key_material =
      hmacSha256 (List.replicate 32 0) input_key_material := by
    unfold hmacSha256
    rw [hkb]
  rw [hk]

end LibsignalKdf
